import Mathlib

set_option maxRecDepth 8192

/-!
# Verification of the UTXO transaction codec and validator

Shallow embedding of `src/utils/binary-encoding.ts` (binary codec) and the
`TransactionValidator` appended to that file.

Modelling conventions:
* JavaScript strings are modelled by their UTF-8 byte sequences (`List Nat`,
  one entry per byte).  `Buffer.from(str, 'utf8')` / `.toString('utf8')` are
  then the identity, which is exactly their behaviour on well-formed strings.
* `Buffer`s are `List Nat` of bytes.
* JavaScript numbers are modelled by `ℚ`: this captures integrality
  (`BigInt(num)` throws on fractional input) and sign exactly; every numeric
  value appearing in the claims is an integer double, on which the model and
  IEEE-754 agree.
* A `throw` in the TypeScript is an `Except.error` carrying the kind of the
  thrown error; distinct throw sites get distinct kinds.
-/

/-- UTXOId from `types.ts` (spec §3): identifies one output of a prior
transaction. -/
structure UTXOId where
  txId : List Nat
  outputIndex : ℚ
deriving DecidableEq, Repr

/-- TransactionInput from `types.ts` (spec §3). -/
structure TransactionInput where
  utxoId : UTXOId
  owner : List Nat
  signature : List Nat
deriving DecidableEq, Repr

/-- TransactionOutput from `types.ts` (spec §3). -/
structure TransactionOutput where
  amount : ℚ
  recipient : List Nat
deriving DecidableEq, Repr

/-- Transaction from `types.ts` (spec §3). -/
structure Transaction where
  id : List Nat
  timestamp : ℚ
  inputs : List TransactionInput
  outputs : List TransactionOutput
deriving DecidableEq, Repr

/-- Error kinds for the four throw sites of the encoder.  The two `RangeError`
sites reachable through `writeNumber` (`BigInt(num)` on a fractional number,
`writeBigUInt64BE` on an out-of-range value) are both `invalidNumber`. -/
inductive EncodeError
  | stringTooLong
  | invalidNumber
  | tooManyInputs
  | tooManyOutputs
deriving DecidableEq, Repr

/-- Decoder failure: Node `Buffer.readUInt8` / `readBigUInt64BE` throw
`ERR_OUT_OF_RANGE` when the read would pass the end of the buffer. -/
inductive DecodeError
  | outOfRange
deriving DecidableEq, Repr

/-- Big-endian bytes of `n`, `k` bytes wide (the byte layout produced by
`writeBigUInt64BE` for `k = 8`). -/
def natToBytesBE : Nat → Nat → List Nat
  | 0, _ => []
  | k + 1, n => natToBytesBE k (n / 256) ++ [n % 256]

/-- Big-endian value of a byte list (the value read by `readBigUInt64BE`). -/
def bytesToNatBE (bs : List Nat) : Nat :=
  bs.foldl (fun acc b => acc * 256 + b) 0

/-- writeString: one length byte followed by the UTF-8 bytes; throws
`String too long` when the byte length exceeds 255. -/
def writeString (s : List Nat) : Except EncodeError (List Nat) :=
  if s.length > 255 then .error .stringTooLong
  else .ok (s.length :: s)

/-- writeNumber: 8 bytes, unsigned 64-bit big-endian.  `BigInt(num)` throws on
a fractional number; `writeBigUInt64BE` throws on a negative value or a value
`≥ 2^64`. -/
def writeNumber (q : ℚ) : Except EncodeError (List Nat) :=
  if q.den ≠ 1 then .error .invalidNumber
  else if q.num < 0 ∨ (2 ^ 64 : ℤ) ≤ q.num then .error .invalidNumber
  else .ok (natToBytesBE 8 q.num.toNat)

/-- writeInput: txId, outputIndex, owner, signature, concatenated. -/
def writeInput (input : TransactionInput) : Except EncodeError (List Nat) := do
  let a ← writeString input.utxoId.txId
  let b ← writeNumber input.utxoId.outputIndex
  let c ← writeString input.owner
  let d ← writeString input.signature
  return a ++ b ++ c ++ d

/-- writeOutput: amount then recipient. -/
def writeOutput (output : TransactionOutput) : Except EncodeError (List Nat) := do
  let a ← writeNumber output.amount
  let b ← writeString output.recipient
  return a ++ b

/-- encodeTransaction: id, timestamp, inputs count byte (throws when the list
is longer than 255), the inputs, outputs count byte (same check), the
outputs. -/
def encodeTransaction (transaction : Transaction) : Except EncodeError (List Nat) := do
  let idB ← writeString transaction.id
  let tsB ← writeNumber transaction.timestamp
  if transaction.inputs.length > 255 then throw .tooManyInputs
  let inB ← transaction.inputs.mapM writeInput
  if transaction.outputs.length > 255 then throw .tooManyOutputs
  let outB ← transaction.outputs.mapM writeOutput
  return idB ++ tsB ++ [transaction.inputs.length] ++ inB.flatten
    ++ [transaction.outputs.length] ++ outB.flatten

/-- readUInt8: the byte at `offset`; throws when the offset is out of range. -/
def readUInt8 (buffer : List Nat) (offset : Nat) : Except DecodeError Nat :=
  if h : offset < buffer.length then .ok buffer[offset] else .error .outOfRange

/-- readString: reads the length byte, then takes the following bytes with
`buffer.subarray(start, end)`.  `subarray` clamps to the buffer bounds and
never throws, and the returned `nextOffset` is `start + length` even when that
lies past the end of the buffer — exactly as in the source. -/
def readString (buffer : List Nat) (offset : Nat) :
    Except DecodeError (List Nat × Nat) := do
  let length ← readUInt8 buffer offset
  let start := offset + 1
  return ((buffer.drop start).take length, start + length)

/-- readNumber: 8 bytes big-endian; `readBigUInt64BE` throws when fewer than
8 bytes remain.  `Number(bigint)` is modelled as the exact value; it agrees
with JavaScript on every value that can occur in a transaction field. -/
def readNumber (buffer : List Nat) (offset : Nat) :
    Except DecodeError (ℚ × Nat) :=
  if offset + 8 ≤ buffer.length then
    .ok (((bytesToNatBE ((buffer.drop offset).take 8) : Nat) : ℚ), offset + 8)
  else .error .outOfRange

/-- readInput: txId, outputIndex, owner, signature, threading the offset. -/
def readInput (buffer : List Nat) (offset : Nat) :
    Except DecodeError (TransactionInput × Nat) := do
  let (txId, offsetOne) ← readString buffer offset
  let (outputIndex, offsetTwo) ← readNumber buffer offsetOne
  let (owner, offsetThree) ← readString buffer offsetTwo
  let (signature, offsetFour) ← readString buffer offsetThree
  return ({ utxoId := { txId, outputIndex }, owner, signature }, offsetFour)

/-- readOutput: amount then recipient, threading the offset. -/
def readOutput (buffer : List Nat) (offset : Nat) :
    Except DecodeError (TransactionOutput × Nat) := do
  let (amount, offsetOne) ← readNumber buffer offset
  let (recipient, offsetTwo) ← readString buffer offsetOne
  return ({ amount, recipient }, offsetTwo)

/-- The `for (let i = 0; i < inputsAmount; i++)` loop of `decodeTransaction`. -/
def readInputs (buffer : List Nat) : Nat → Nat →
    Except DecodeError (List TransactionInput × Nat)
  | 0, offset => .ok ([], offset)
  | n + 1, offset => do
    let (input, nextOffset) ← readInput buffer offset
    let (rest, finalOffset) ← readInputs buffer n nextOffset
    return (input :: rest, finalOffset)

/-- The `for (let i = 0; i < outputsAmount; i++)` loop of
`decodeTransaction`. -/
def readOutputs (buffer : List Nat) : Nat → Nat →
    Except DecodeError (List TransactionOutput × Nat)
  | 0, offset => .ok ([], offset)
  | n + 1, offset => do
    let (output, nextOffset) ← readOutput buffer offset
    let (rest, finalOffset) ← readOutputs buffer n nextOffset
    return (output :: rest, finalOffset)

/-- decodeTransaction: id, timestamp, inputs count and inputs, outputs count
and outputs.  Bytes past the last read are never inspected. -/
def decodeTransaction (buffer : List Nat) : Except DecodeError Transaction := do
  let (id, offsetOne) ← readString buffer 0
  let (timestamp, offsetTwo) ← readNumber buffer offsetOne
  let inputsAmount ← readUInt8 buffer offsetTwo
  let (inputs, offsetThree) ← readInputs buffer inputsAmount (offsetTwo + 1)
  let outputsAmount ← readUInt8 buffer offsetThree
  let (outputs, _) ← readOutputs buffer outputsAmount (offsetThree + 1)
  return { id, inputs, outputs, timestamp }

example : writeString [97, 98] = .ok [2, 97, 98] := by rfl
example : writeNumber 5 = .ok [0, 0, 0, 0, 0, 0, 0, 5] := by rfl
example : writeNumber (-1) = .error .invalidNumber := by rfl
example :
    decodeTransaction [1, 97, 0, 0, 0, 0, 0, 0, 0, 7, 0, 1,
      0, 0, 0, 0, 0, 0, 0, 5, 1, 98] =
    .ok { id := [97], timestamp := 7, inputs := [],
          outputs := [{ amount := 5, recipient := [98] }] } := by rfl

/-! ## Validator (`TransactionValidator`, second half of the source file) -/

/-- ASCII bytes of a literal (all validator message literals are ASCII, so
this is their UTF-8 encoding). -/
def asciiBytes (s : String) : List Nat :=
  s.toList.map Char.toNat

/-- Bytes of the decimal rendering of a number, used where the TypeScript
interpolates a number into a template string.  JavaScript and `ℚ` agree on
integers; only such values reach these interpolations in the claims. -/
def ratBytes (q : ℚ) : List Nat :=
  asciiBytes (toString q)

/-- Error codes of `VALIDATION_ERRORS` from `errors.ts` (spec §4.2). -/
inductive ErrorCode
  | EMPTY_INPUTS
  | EMPTY_OUTPUTS
  | UTXO_NOT_FOUND
  | NEGATIVE_AMOUNT
  | INVALID_SIGNATURE
  | DOUBLE_SPENDING
  | AMOUNT_MISMATCH
deriving DecidableEq, Repr

/-- ValidationError from `errors.ts` (spec §3): an error code and a
human-readable message. -/
structure ValidationError where
  kind : ErrorCode
  message : List Nat
deriving DecidableEq, Repr

/-- ValidationResult from `errors.ts` (spec §3). -/
structure ValidationResult where
  valid : Bool
  errors : List ValidationError
deriving DecidableEq, Repr

/-- Modelled from the spec: `createValidationError` of `errors.ts` (not under
`src/`) packages an error code and message into a ValidationError. -/
def createValidationError (kind : ErrorCode) (message : List Nat) : ValidationError :=
  { kind, message }

/-- Modelled from the spec: `getUTXOKey` of `types.ts` (not under `src/`)
produces the canonical string form `txId:outputIndex` (spec §3). -/
def getUTXOKey (utxoId : UTXOId) : List Nat :=
  utxoId.txId ++ asciiBytes ":" ++ ratBytes utxoId.outputIndex

/-- UTXO, the external entity returned by the store (spec §3): the fields the
validator reads. -/
structure UTXO where
  amount : ℚ
  owner : List Nat
deriving DecidableEq, Repr

/-- The UTXO store interface (spec §6): `getUTXO(txId, outputIndex)` returning
the UTXO or nothing. -/
def UTXOStore : Type :=
  List Nat → ℚ → Option UTXO

/-- The external verification primitive (spec §6):
`verify(message, signature, identity) -> boolean`. -/
def Verifier : Type :=
  List Nat → List Nat → List Nat → Bool

/-- One JSON-escaped byte, as `JSON.stringify` escapes string contents: quote,
backslash, the named control escapes, `\u00XX` for other control bytes.
UTF-8 continuation bytes are ≥ 0x80 and pass through untouched, so bytewise
escaping coincides with JavaScript's characterwise escaping. -/
def jsonEscapeByte (b : Nat) : List Nat :=
  if b = 34 then [92, 34]
  else if b = 92 then [92, 92]
  else if b = 8 then [92, 98]
  else if b = 9 then [92, 116]
  else if b = 10 then [92, 110]
  else if b = 12 then [92, 102]
  else if b = 13 then [92, 114]
  else if b < 32 then
    [92, 117, 48, 48,
      (if b / 16 < 10 then 48 + b / 16 else 87 + b / 16),
      (if b % 16 < 10 then 48 + b % 16 else 87 + b % 16)]
  else [b]

/-- A JSON string literal: quote, escaped content bytes, quote. -/
def jsonStr (s : List Nat) : List Nat :=
  [34] ++ (s.map jsonEscapeByte).flatten ++ [34]

/-- A JSON number.  `JSON.stringify` renders an integer JavaScript number in
plain decimal, as does `toString` on an integral `ℚ`. -/
def jsonNum (q : ℚ) : List Nat :=
  ratBytes q

/-- JSON object for one element of the `inputs` projection inside
`createTransactionDataForSigning_`: `utxoId` (with `txId`, `outputIndex`)
then `owner` — and no `signature` field.  `0x7b`/`0x7d` are the brace bytes,
`0x5b`/`0x5d` the brackets, `0x2c` the comma, `0x3a` the colon. -/
def unsignedInputJson (input : TransactionInput) : List Nat :=
  [123] ++ jsonStr (asciiBytes "utxoId") ++ [58]
    ++ [123] ++ jsonStr (asciiBytes "txId") ++ [58] ++ jsonStr input.utxoId.txId ++ [44]
    ++ jsonStr (asciiBytes "outputIndex") ++ [58] ++ jsonNum input.utxoId.outputIndex
    ++ [125] ++ [44]
    ++ jsonStr (asciiBytes "owner") ++ [58] ++ jsonStr input.owner ++ [125]

/-- JSON object for one TransactionOutput: `amount` then `recipient`. -/
def outputJson (output : TransactionOutput) : List Nat :=
  [123] ++ jsonStr (asciiBytes "amount") ++ [58] ++ jsonNum output.amount ++ [44]
    ++ jsonStr (asciiBytes "recipient") ++ [58] ++ jsonStr output.recipient ++ [125]

/-- createTransactionDataForSigning_: `JSON.stringify` of the unsigned
projection `{id, inputs: [{utxoId, owner}], outputs, timestamp}`, keys in the
insertion order of the object literal in the source. -/
def createTransactionDataForSigning (transaction : Transaction) : List Nat :=
  [123] ++ jsonStr (asciiBytes "id") ++ [58] ++ jsonStr transaction.id ++ [44]
    ++ jsonStr (asciiBytes "inputs") ++ [58]
    ++ [91] ++ (List.intercalate [44] (transaction.inputs.map unsignedInputJson)) ++ [93] ++ [44]
    ++ jsonStr (asciiBytes "outputs") ++ [58]
    ++ [91] ++ (List.intercalate [44] (transaction.outputs.map outputJson)) ++ [93] ++ [44]
    ++ jsonStr (asciiBytes "timestamp") ++ [58] ++ jsonNum transaction.timestamp ++ [125]

/-- validateNonEmptyInputsAndOutputs: `EmptyInputs` / `EmptyOutputs` findings. -/
def validateNonEmptyInputsAndOutputs (transaction : Transaction) : List ValidationError :=
  (if transaction.inputs.length = 0 then
    [createValidationError .EMPTY_INPUTS (asciiBytes "Empty inputs")] else [])
  ++ (if transaction.outputs.length = 0 then
    [createValidationError .EMPTY_OUTPUTS (asciiBytes "Empty outputs")] else [])

/-- validateBalance: per-output `NegativeAmount` findings and the accumulated
`outputsTotal`, then `AmountMismatch` when the totals differ. -/
def validateBalance (inputsTotal : ℚ) (transaction : Transaction) : List ValidationError :=
  let scan := transaction.outputs.foldl
    (fun (st : List ValidationError × ℚ) output =>
      (st.1 ++ (if output.amount ≤ 0 then
        [createValidationError .NEGATIVE_AMOUNT
          (asciiBytes "Output amount can not be negative or zero: " ++ ratBytes output.amount)]
        else []),
       st.2 + output.amount))
    ([], 0)
  scan.1 ++ (if inputsTotal ≠ scan.2 then
    [createValidationError .AMOUNT_MISMATCH
      (asciiBytes "AMOUNTS MISMATCH: " ++ ratBytes inputsTotal
        ++ asciiBytes " != " ++ ratBytes scan.2)]
    else [])

/-- validateDoubleSpending: the `DoubleSpending` finding (when the key was
already seen) and the updated seen-set, the TypeScript's two mutations made
explicit. -/
def validateDoubleSpending (input : TransactionInput) (utxos : List (List Nat)) :
    List ValidationError × List (List Nat) :=
  let utxoKey := getUTXOKey input.utxoId
  if utxoKey ∈ utxos then
    ([createValidationError .DOUBLE_SPENDING
      (asciiBytes "This UTXO is referenced multiple times within the same transaction: "
        ++ utxoKey)], utxos)
  else ([], utxoKey :: utxos)

/-- validateInputSignature: recompute the signable payload and check
`verify(transactionData, input.signature, input.owner)`. -/
def validateInputSignature (verify : Verifier) (transaction : Transaction)
    (input : TransactionInput) : List ValidationError :=
  let transactionData := createTransactionDataForSigning transaction
  if verify transactionData input.signature input.owner then []
  else [createValidationError .INVALID_SIGNATURE (asciiBytes "invalid signature")]

/-- One round of the per-input loop of `validateTransaction`: state is
(errors so far, `imputTotal`, seen UTXO keys). -/
def processInput (getUTXO : UTXOStore) (verify : Verifier) (transaction : Transaction)
    (st : List ValidationError × ℚ × List (List Nat)) (input : TransactionInput) :
    List ValidationError × ℚ × List (List Nat) :=
  match getUTXO input.utxoId.txId input.utxoId.outputIndex with
  | none =>
    (st.1 ++ [createValidationError .UTXO_NOT_FOUND
      (asciiBytes "Utxo not found: " ++ input.utxoId.txId
        ++ asciiBytes ":" ++ ratBytes input.utxoId.outputIndex)],
     st.2.1, st.2.2)
  | some utxo =>
    let errsA := st.1 ++ (if utxo.amount ≤ 0 then
      [createValidationError .NEGATIVE_AMOUNT (asciiBytes "Utxo amount must be positive")]
      else [])
    let errsB := errsA ++ validateInputSignature verify transaction input
    let ds := validateDoubleSpending input st.2.2
    (errsB ++ ds.1, st.2.1 + utxo.amount, ds.2)

/-- validateTransaction: structural findings, the per-input loop, then the
balance findings; `valid` is `errors.length === 0`. -/
def validateTransaction (getUTXO : UTXOStore) (verify : Verifier)
    (transaction : Transaction) : ValidationResult :=
  let st := transaction.inputs.foldl (processInput getUTXO verify transaction)
    (validateNonEmptyInputsAndOutputs transaction, (0 : ℚ), ([] : List (List Nat)))
  let errors := st.1 ++ validateBalance st.2.1 transaction
  { valid := errors.length == 0, errors := errors }

/-! ## Codec lemmas -/

theorem natToBytesBE_length (k n : Nat) : (natToBytesBE k n).length = k := by
  induction k generalizing n with
  | zero => rfl
  | succ m ih => simp [natToBytesBE, ih]

theorem bytesToNatBE_append (xs : List Nat) (b : Nat) :
    bytesToNatBE (xs ++ [b]) = bytesToNatBE xs * 256 + b := by
  simp [bytesToNatBE, List.foldl_append]

theorem bytesToNatBE_natToBytesBE (k n : Nat) :
    bytesToNatBE (natToBytesBE k n) = n % 256 ^ k := by
  induction k generalizing n with
  | zero => simp [natToBytesBE, bytesToNatBE, Nat.mod_one]
  | succ m ih =>
    rw [natToBytesBE, bytesToNatBE_append, ih]
    have h : (256 : Nat) ^ (m + 1) = 256 * 256 ^ m := by ring
    rw [h, Nat.mod_mul]
    ring

theorem exceptBind_ok {ε α β : Type} {m : Except ε α} {k : α → Except ε β} {b : β} :
    m.bind k = .ok b ↔ ∃ a, m = .ok a ∧ k a = .ok b := by
  cases m <;> simp [Except.bind]

theorem ok_bind {ε α β : Type} (a : α) (f : α → Except ε β) :
    (Except.ok a : Except ε α) >>= f = f a := rfl

theorem error_bind {ε α β : Type} (e : ε) (f : α → Except ε β) :
    (Except.error e : Except ε α) >>= f = .error e := rfl

theorem except_pure_bind {ε α β : Type} (a : α) (f : α → Except ε β) :
    (pure a : Except ε α) >>= f = f a := rfl

theorem bind_ok_iff {ε α β : Type} {m : Except ε α} {k : α → Except ε β} {b : β} :
    m >>= k = .ok b ↔ ∃ a, m = .ok a ∧ k a = .ok b := by
  cases m <;> simp [ok_bind, error_bind]

theorem readUInt8_at (pre : List Nat) (b : Nat) (rest : List Nat) :
    readUInt8 (pre ++ b :: rest) pre.length = .ok b := by
  have hlt : pre.length < (pre ++ b :: rest).length := by simp
  simp only [readUInt8, dif_pos hlt]
  congr 1
  rw [List.getElem_append_right (Nat.le_refl pre.length)]
  simp

theorem writeString_ok {s w : List Nat} (h : writeString s = .ok w) :
    s.length ≤ 255 ∧ w = s.length :: s := by
  by_cases hl : s.length > 255
  · simp [writeString, hl] at h
  · simp [writeString, hl] at h
    exact ⟨by omega, h.symm⟩

theorem readString_writeString {s w : List Nat} (h : writeString s = .ok w)
    (pre rest : List Nat) :
    readString (pre ++ w ++ rest) pre.length = .ok (s, pre.length + w.length) := by
  obtain ⟨-, hw⟩ := writeString_ok h
  subst hw
  have hsplit : pre ++ (s.length :: s) ++ rest = pre ++ s.length :: (s ++ rest) := by simp
  rw [readString, hsplit, readUInt8_at pre s.length (s ++ rest), ok_bind]
  have hdrop : (pre ++ s.length :: (s ++ rest)).drop (pre.length + 1) = s ++ rest := by
    rw [show pre ++ s.length :: (s ++ rest) = (pre ++ [s.length]) ++ (s ++ rest) by simp,
      show pre.length + 1 = (pre ++ [s.length]).length by simp]
    exact List.drop_left _ _
  have htake : (s ++ rest).take s.length = s := List.take_left s rest
  simp only [hdrop, htake, pure]
  congr 2
  simp
  omega

theorem writeNumber_ok {q : ℚ} {w : List Nat} (h : writeNumber q = .ok w) :
    q.den = 1 ∧ 0 ≤ q.num ∧ q.num < 2 ^ 64 ∧ w = natToBytesBE 8 q.num.toNat := by
  unfold writeNumber at h
  split at h
  · exact absurd h (by simp)
  · split at h
    · exact absurd h (by simp)
    · rename_i h1 h2
      push_neg at h1 h2
      refine ⟨h1, h2.1, h2.2, ?_⟩
      injection h with h
      exact h.symm

theorem readNumber_writeNumber {q : ℚ} {w : List Nat} (h : writeNumber q = .ok w)
    (pre rest : List Nat) :
    readNumber (pre ++ w ++ rest) pre.length = .ok (q, pre.length + 8) := by
  obtain ⟨hden, hpos, hlt, hw⟩ := writeNumber_ok h
  subst hw
  have hlen : (natToBytesBE 8 q.num.toNat).length = 8 := natToBytesBE_length 8 _
  have hcond : pre.length + 8 ≤ (pre ++ natToBytesBE 8 q.num.toNat ++ rest).length := by
    simp [hlen]
  rw [readNumber, if_pos hcond]
  have hdrop : (pre ++ natToBytesBE 8 q.num.toNat ++ rest).drop pre.length
      = natToBytesBE 8 q.num.toNat ++ rest := by
    rw [List.append_assoc]
    exact List.drop_left _ _
  have htake : (natToBytesBE 8 q.num.toNat ++ rest).take 8 = natToBytesBE 8 q.num.toNat := by
    rw [← hlen]
    exact List.take_left _ _
  rw [hdrop, htake, bytesToNatBE_natToBytesBE]
  have hmod : q.num.toNat % 256 ^ 8 = q.num.toNat := by
    apply Nat.mod_eq_of_lt
    have h256 : (256 : Nat) ^ 8 = 2 ^ 64 := by norm_num
    rw [h256]
    omega
  rw [hmod]
  have hq : ((q.num.toNat : Nat) : ℚ) = q := by
    rw [show ((q.num.toNat : Nat) : ℚ) = ((q.num.toNat : ℤ) : ℚ) by push_cast; ring,
      Int.toNat_of_nonneg hpos, (Rat.den_eq_one_iff q).mp hden]
  rw [hq]

theorem writeInput_ok {i : TransactionInput} {w : List Nat} (h : writeInput i = .ok w) :
    ∃ a b c d, writeString i.utxoId.txId = .ok a ∧ writeNumber i.utxoId.outputIndex = .ok b ∧
      writeString i.owner = .ok c ∧ writeString i.signature = .ok d ∧ w = a ++ b ++ c ++ d := by
  unfold writeInput at h
  obtain ⟨a, ha, h⟩ := bind_ok_iff.mp h
  obtain ⟨b, hb, h⟩ := bind_ok_iff.mp h
  obtain ⟨c, hc, h⟩ := bind_ok_iff.mp h
  obtain ⟨d, hd, h⟩ := bind_ok_iff.mp h
  refine ⟨a, b, c, d, ha, hb, hc, hd, ?_⟩
  simpa [pure, Except.pure] using h.symm

theorem writeOutput_ok {o : TransactionOutput} {w : List Nat} (h : writeOutput o = .ok w) :
    ∃ a b, writeNumber o.amount = .ok a ∧ writeString o.recipient = .ok b ∧ w = a ++ b := by
  unfold writeOutput at h
  obtain ⟨a, ha, h⟩ := bind_ok_iff.mp h
  obtain ⟨b, hb, h⟩ := bind_ok_iff.mp h
  refine ⟨a, b, ha, hb, ?_⟩
  simpa [pure, Except.pure] using h.symm

theorem readInput_writeInput {i : TransactionInput} {w : List Nat}
    (h : writeInput i = .ok w) (pre rest : List Nat) :
    readInput (pre ++ w ++ rest) pre.length = .ok (i, pre.length + w.length) := by
  obtain ⟨a, b, c, d, ha, hb, hc, hd, hw⟩ := writeInput_ok h
  subst hw
  have hb8 : b.length = 8 := by
    obtain ⟨-, -, -, hb'⟩ := writeNumber_ok hb
    rw [hb']
    exact natToBytesBE_length 8 _
  have h1 := readString_writeString ha pre (b ++ (c ++ (d ++ rest)))
  have h2 := readNumber_writeNumber hb (pre ++ a) (c ++ (d ++ rest))
  have h3 := readString_writeString hc ((pre ++ a) ++ b) (d ++ rest)
  have h4 := readString_writeString hd (((pre ++ a) ++ b) ++ c) rest
  simp only [List.append_assoc, List.length_append, hb8, Nat.add_assoc] at h1 h2 h3 h4 ⊢
  rw [readInput]
  simp only [List.append_assoc, Nat.add_assoc, h1, h2, h3, h4, ok_bind, pure, Except.pure]

theorem readOutput_writeOutput {o : TransactionOutput} {w : List Nat}
    (h : writeOutput o = .ok w) (pre rest : List Nat) :
    readOutput (pre ++ w ++ rest) pre.length = .ok (o, pre.length + w.length) := by
  obtain ⟨a, b, ha, hb, hw⟩ := writeOutput_ok h
  subst hw
  have ha8 : a.length = 8 := by
    obtain ⟨-, -, -, ha'⟩ := writeNumber_ok ha
    rw [ha']
    exact natToBytesBE_length 8 _
  have h1 := readNumber_writeNumber ha pre (b ++ rest)
  have h2 := readString_writeString hb (pre ++ a) rest
  simp only [List.append_assoc, List.length_append, ha8, Nat.add_assoc] at h1 h2 ⊢
  rw [readOutput]
  simp only [List.append_assoc, Nat.add_assoc, h1, h2, ok_bind, pure, Except.pure]

theorem readInputs_mapM {inputs : List TransactionInput} {ws : List (List Nat)}
    (h : inputs.mapM writeInput = .ok ws) (pre rest : List Nat) :
    readInputs (pre ++ ws.flatten ++ rest) inputs.length pre.length
      = .ok (inputs, pre.length + ws.flatten.length) := by
  induction inputs generalizing pre ws with
  | nil =>
    simp only [List.mapM_nil, pure, Except.pure, Except.ok.injEq] at h
    subst h
    simp [readInputs]
  | cons i tl ih =>
    rw [List.mapM_cons] at h
    obtain ⟨w, hw, h⟩ := bind_ok_iff.mp h
    obtain ⟨ws', hws, h⟩ := bind_ok_iff.mp h
    simp only [pure, Except.pure, Except.ok.injEq] at h
    subst h
    have h1 := readInput_writeInput hw pre (ws'.flatten ++ rest)
    have h2 := ih hws (pre ++ w)
    simp only [List.flatten_cons, List.append_assoc, List.length_append, List.length_cons,
      List.length_nil, Nat.zero_add, Nat.add_zero, Nat.add_assoc, Nat.add_comm,
      Nat.add_left_comm] at h1 h2 ⊢
    rw [readInputs]
    simp only [List.append_assoc, List.length_append, Nat.zero_add, Nat.add_zero,
      Nat.add_assoc, Nat.add_comm, Nat.add_left_comm, h1, h2, ok_bind, pure, Except.pure]

theorem readOutputs_mapM {outputs : List TransactionOutput} {ws : List (List Nat)}
    (h : outputs.mapM writeOutput = .ok ws) (pre rest : List Nat) :
    readOutputs (pre ++ ws.flatten ++ rest) outputs.length pre.length
      = .ok (outputs, pre.length + ws.flatten.length) := by
  induction outputs generalizing pre ws with
  | nil =>
    simp only [List.mapM_nil, pure, Except.pure, Except.ok.injEq] at h
    subst h
    simp [readOutputs]
  | cons o tl ih =>
    rw [List.mapM_cons] at h
    obtain ⟨w, hw, h⟩ := bind_ok_iff.mp h
    obtain ⟨ws', hws, h⟩ := bind_ok_iff.mp h
    simp only [pure, Except.pure, Except.ok.injEq] at h
    subst h
    have h1 := readOutput_writeOutput hw pre (ws'.flatten ++ rest)
    have h2 := ih hws (pre ++ w)
    simp only [List.flatten_cons, List.append_assoc, List.length_append, List.length_cons,
      List.length_nil, Nat.zero_add, Nat.add_zero, Nat.add_assoc, Nat.add_comm,
      Nat.add_left_comm] at h1 h2 ⊢
    rw [readOutputs]
    simp only [List.append_assoc, List.length_append, Nat.zero_add, Nat.add_zero,
      Nat.add_assoc, Nat.add_comm, Nat.add_left_comm, h1, h2, ok_bind, pure, Except.pure]

theorem encodeTransaction_ok {t : Transaction} {b : List Nat}
    (h : encodeTransaction t = .ok b) :
    ∃ idB tsB inWs outWs,
      writeString t.id = .ok idB ∧ writeNumber t.timestamp = .ok tsB ∧
      t.inputs.length ≤ 255 ∧ t.inputs.mapM writeInput = .ok inWs ∧
      t.outputs.length ≤ 255 ∧ t.outputs.mapM writeOutput = .ok outWs ∧
      b = idB ++ tsB ++ [t.inputs.length] ++ inWs.flatten
        ++ [t.outputs.length] ++ outWs.flatten := by
  unfold encodeTransaction at h
  obtain ⟨idB, hid, h⟩ := bind_ok_iff.mp h
  obtain ⟨tsB, hts, h⟩ := bind_ok_iff.mp h
  by_cases hin : t.inputs.length > 255
  · rw [if_pos hin] at h
    exact absurd h (by simp [throw, throwThe, MonadExceptOf.throw, error_bind])
  · rw [if_neg hin, except_pure_bind] at h
    obtain ⟨inWs, hinW, h⟩ := bind_ok_iff.mp h
    by_cases hout : t.outputs.length > 255
    · rw [if_pos hout] at h
      exact absurd h (by simp [throw, throwThe, MonadExceptOf.throw, error_bind])
    · rw [if_neg hout, except_pure_bind] at h
      obtain ⟨outWs, houtW, h⟩ := bind_ok_iff.mp h
      simp only [pure, Except.pure, Except.ok.injEq] at h
      exact ⟨idB, tsB, inWs, outWs, hid, hts, by omega, hinW, by omega, houtW, h.symm⟩

theorem decodeTransaction_encodeTransaction {t : Transaction} {b : List Nat}
    (h : encodeTransaction t = .ok b) (rest : List Nat) :
    decodeTransaction (b ++ rest) = .ok t := by
  obtain ⟨idB, tsB, inWs, outWs, hid, hts, hinLe, hinW, houtLe, houtW, hb⟩ :=
    encodeTransaction_ok h
  subst hb
  have hts8 : tsB.length = 8 := by
    obtain ⟨-, -, -, hts'⟩ := writeNumber_ok hts
    rw [hts']
    exact natToBytesBE_length 8 _
  have h1 := readString_writeString hid ([])
    (tsB ++ ([t.inputs.length] ++ (inWs.flatten ++ ([t.outputs.length] ++ (outWs.flatten ++ rest)))))
  have h2 := readNumber_writeNumber hts idB
    ([t.inputs.length] ++ (inWs.flatten ++ ([t.outputs.length] ++ (outWs.flatten ++ rest))))
  have h3 := readUInt8_at (idB ++ tsB) t.inputs.length
    (inWs.flatten ++ ([t.outputs.length] ++ (outWs.flatten ++ rest)))
  have h4 := readInputs_mapM hinW (idB ++ tsB ++ [t.inputs.length])
    ([t.outputs.length] ++ (outWs.flatten ++ rest))
  have h5 := readUInt8_at (idB ++ tsB ++ [t.inputs.length] ++ inWs.flatten)
    t.outputs.length (outWs.flatten ++ rest)
  have h6 := readOutputs_mapM houtW
    (idB ++ tsB ++ [t.inputs.length] ++ inWs.flatten ++ [t.outputs.length]) rest
  simp only [List.append_assoc, List.cons_append, List.length_append, List.length_cons,
    List.length_nil, List.nil_append, List.singleton_append, hts8, Nat.zero_add, Nat.add_zero,
    Nat.add_assoc, Nat.add_comm, Nat.add_left_comm] at h1 h2 h3 h4 h5 h6 ⊢
  rw [decodeTransaction]
  simp only [List.append_assoc, List.cons_append, List.singleton_append, Nat.zero_add,
    Nat.add_zero, Nat.add_assoc, Nat.add_comm, Nat.add_left_comm, h1, h2, h3, h4, h5, h6,
    ok_bind, pure, Except.pure]

/-! ## Length invariants of §3 and encoder success -/

/-- A numeric field the codec accepts: a non-negative integer representable in
64 bits (spec §4.1). -/
def validNum (q : ℚ) : Prop :=
  q.den = 1 ∧ 0 ≤ q.num ∧ q.num < 2 ^ 64

instance validNum.instDecidable (q : ℚ) : Decidable (validNum q) := by
  unfold validNum
  infer_instance

/-- All fields of one input are inside the codec limits. -/
def inputOk (i : TransactionInput) : Prop :=
  i.utxoId.txId.length ≤ 255 ∧ validNum i.utxoId.outputIndex ∧
    i.owner.length ≤ 255 ∧ i.signature.length ≤ 255

instance inputOk.instDecidable (i : TransactionInput) : Decidable (inputOk i) := by
  unfold inputOk
  infer_instance

/-- All fields of one output are inside the codec limits. -/
def outputOk (o : TransactionOutput) : Prop :=
  validNum o.amount ∧ o.recipient.length ≤ 255

instance outputOk.instDecidable (o : TransactionOutput) : Decidable (outputOk o) := by
  unfold outputOk
  infer_instance

/-- The length invariants of spec §3: every string field at most 255 UTF-8
bytes, inputs and outputs at most 255 elements, every numeric field a
non-negative 64-bit integer. -/
def withinLimits (t : Transaction) : Prop :=
  t.id.length ≤ 255 ∧ validNum t.timestamp ∧
    t.inputs.length ≤ 255 ∧ (∀ i ∈ t.inputs, inputOk i) ∧
    t.outputs.length ≤ 255 ∧ (∀ o ∈ t.outputs, outputOk o)

instance withinLimits.instDecidable (t : Transaction) : Decidable (withinLimits t) := by
  unfold withinLimits
  infer_instance

theorem writeString_isOk {s : List Nat} (h : s.length ≤ 255) :
    writeString s = .ok (s.length :: s) := by
  rw [writeString, if_neg (by omega)]

theorem writeNumber_isOk {q : ℚ} (h : validNum q) :
    writeNumber q = .ok (natToBytesBE 8 q.num.toNat) := by
  obtain ⟨h1, h2, h3⟩ := h
  rw [writeNumber, if_neg (by simp [h1]), if_neg (by omega)]

theorem writeInput_isOk {i : TransactionInput} (h : inputOk i) :
    ∃ w, writeInput i = .ok w := by
  obtain ⟨h1, h2, h3, h4⟩ := h
  refine ⟨(i.utxoId.txId.length :: i.utxoId.txId) ++ natToBytesBE 8 i.utxoId.outputIndex.num.toNat
    ++ (i.owner.length :: i.owner) ++ (i.signature.length :: i.signature), ?_⟩
  unfold writeInput
  rw [writeString_isOk h1, ok_bind, writeNumber_isOk h2, ok_bind,
    writeString_isOk h3, ok_bind, writeString_isOk h4, ok_bind]
  rfl

theorem writeOutput_isOk {o : TransactionOutput} (h : outputOk o) :
    ∃ w, writeOutput o = .ok w := by
  obtain ⟨h1, h2⟩ := h
  refine ⟨natToBytesBE 8 o.amount.num.toNat ++ (o.recipient.length :: o.recipient), ?_⟩
  unfold writeOutput
  rw [writeNumber_isOk h1, ok_bind, writeString_isOk h2, ok_bind]
  rfl

theorem mapM_writeInput_isOk {l : List TransactionInput} (h : ∀ i ∈ l, inputOk i) :
    ∃ ws, l.mapM writeInput = .ok ws := by
  induction l with
  | nil => exact ⟨[], by simp [List.mapM_nil]; rfl⟩
  | cons i tl ih =>
    obtain ⟨w, hw⟩ := writeInput_isOk (h i (by simp))
    obtain ⟨ws, hws⟩ := ih (fun j hj => h j (by simp [hj]))
    refine ⟨w :: ws, ?_⟩
    rw [List.mapM_cons, hw, ok_bind, hws, ok_bind]
    rfl

theorem mapM_writeOutput_isOk {l : List TransactionOutput} (h : ∀ o ∈ l, outputOk o) :
    ∃ ws, l.mapM writeOutput = .ok ws := by
  induction l with
  | nil => exact ⟨[], by simp [List.mapM_nil]; rfl⟩
  | cons o tl ih =>
    obtain ⟨w, hw⟩ := writeOutput_isOk (h o (by simp))
    obtain ⟨ws, hws⟩ := ih (fun j hj => h j (by simp [hj]))
    refine ⟨w :: ws, ?_⟩
    rw [List.mapM_cons, hw, ok_bind, hws, ok_bind]
    rfl

theorem encodeTransaction_isOk {t : Transaction} (h : withinLimits t) :
    ∃ b, encodeTransaction t = .ok b := by
  obtain ⟨hid, hts, hinLe, hin, houtLe, hout⟩ := h
  obtain ⟨inWs, hinW⟩ := mapM_writeInput_isOk hin
  obtain ⟨outWs, houtW⟩ := mapM_writeOutput_isOk hout
  refine ⟨(t.id.length :: t.id) ++ natToBytesBE 8 t.timestamp.num.toNat
    ++ [t.inputs.length] ++ inWs.flatten ++ [t.outputs.length] ++ outWs.flatten, ?_⟩
  unfold encodeTransaction
  rw [writeString_isOk hid, ok_bind, writeNumber_isOk hts, ok_bind,
    if_neg (by omega), except_pure_bind, hinW, ok_bind,
    if_neg (by omega), except_pure_bind, houtW, ok_bind]
  rfl

/-! ## Codec claims -/

/-- C1: for every Transaction whose string fields are each at most 255 UTF-8
bytes, whose inputs and outputs lists each have at most 255 elements, and
whose numeric fields are non-negative integers representable in 64 bits,
`decodeTransaction(encodeTransaction(tx))` is structurally equal to `tx`. -/
theorem encode_decode_roundtrip (t : Transaction) (h : withinLimits t) :
    ∃ b, encodeTransaction t = .ok b ∧ decodeTransaction b = .ok t := by
  obtain ⟨b, hb⟩ := encodeTransaction_isOk h
  refine ⟨b, hb, ?_⟩
  have := decodeTransaction_encodeTransaction hb []
  simpa using this

/-- Witness for C1 at a concrete one-input, one-output transaction. -/
theorem encode_decode_roundtrip_witness :
    ∃ b,
      encodeTransaction
        { id := [97], timestamp := 7,
          inputs := [{ utxoId := { txId := [98], outputIndex := 0 },
                       owner := [99], signature := [100] }],
          outputs := [{ amount := 5, recipient := [101] }] } = .ok b ∧
      decodeTransaction b = .ok
        { id := [97], timestamp := 7,
          inputs := [{ utxoId := { txId := [98], outputIndex := 0 },
                       owner := [99], signature := [100] }],
          outputs := [{ amount := 5, recipient := [101] }] } :=
  encode_decode_roundtrip _ (by decide)

/-- C10: decodeTransaction consumes only the declared prefix: decoding
`encodeTransaction(tx) ++ extra` succeeds and returns `tx`, silently ignoring
the trailing bytes. -/
theorem decode_ignores_trailing_bytes (t : Transaction) (extra : List Nat)
    (h : withinLimits t) :
    ∃ b, encodeTransaction t = .ok b ∧ decodeTransaction (b ++ extra) = .ok t := by
  obtain ⟨b, hb⟩ := encodeTransaction_isOk h
  exact ⟨b, hb, decodeTransaction_encodeTransaction hb extra⟩

/-- Witness for C10: three garbage bytes appended to a concrete encoding are
ignored. -/
theorem decode_ignores_trailing_bytes_witness :
    ∃ b,
      encodeTransaction
        { id := [97], timestamp := 7,
          inputs := [{ utxoId := { txId := [98], outputIndex := 0 },
                       owner := [99], signature := [100] }],
          outputs := [{ amount := 5, recipient := [101] }] } = .ok b ∧
      decodeTransaction (b ++ [255, 254, 253]) = .ok
        { id := [97], timestamp := 7,
          inputs := [{ utxoId := { txId := [98], outputIndex := 0 },
                       owner := [99], signature := [100] }],
          outputs := [{ amount := 5, recipient := [101] }] } :=
  decode_ignores_trailing_bytes _ [255, 254, 253] (by decide)

/-- Transaction exhibiting the truncation bug of C2: within the §3
invariants, with a 3-byte recipient as the final field. -/
def txTrunc : Transaction :=
  { id := [97], timestamp := 0, inputs := [],
    outputs := [{ amount := 5, recipient := [97, 98, 99] }] }

/-- C2 (code bug): the claim says decoding an encoding truncated by its last
3 bytes must fail with a malformed-data error.  On `txTrunc` the truncation
falls inside the trailing string, `buffer.subarray` clamps instead of
throwing, and `decodeTransaction` silently returns a transaction whose
recipient lost its three bytes. -/
theorem decode_truncated_returns_corrupted :
    withinLimits txTrunc ∧
    encodeTransaction txTrunc =
      .ok [1, 97, 0, 0, 0, 0, 0, 0, 0, 0, 0, 1, 0, 0, 0, 0, 0, 0, 0, 5, 3, 97, 98, 99] ∧
    decodeTransaction
        ([1, 97, 0, 0, 0, 0, 0, 0, 0, 0, 0, 1, 0, 0, 0, 0, 0, 0, 0, 5, 3, 97, 98, 99].take
          (24 - 3)) =
      .ok { id := [97], timestamp := 0, inputs := [],
            outputs := [{ amount := 5, recipient := [] }] } :=
  ⟨by decide, by rfl, by rfl⟩

/-- C3: writeNumber rejects negative and fractional input with the
invalid-number error (the `RangeError`s thrown by `BigInt(num)` and
`writeBigUInt64BE`) instead of emitting bytes, and encodeTransaction of a
transaction carrying such a timestamp fails the same way. -/
theorem writeNumber_rejects_negative_and_fractional (q : ℚ) (t : Transaction) :
    (q.den ≠ 1 ∨ q < 0 → writeNumber q = .error .invalidNumber)
    ∧ (t.id.length ≤ 255 → t.timestamp.den ≠ 1 ∨ t.timestamp < 0 →
        encodeTransaction t = .error .invalidNumber) := by
  have main : ∀ r : ℚ, r.den ≠ 1 ∨ r < 0 → writeNumber r = .error .invalidNumber := by
    intro r hr
    by_cases hden : r.den = 1
    · have hneg : r < 0 := hr.resolve_left (by simp [hden])
      rw [writeNumber, if_neg (by simp [hden]),
        if_pos (Or.inl (Rat.num_neg.mpr hneg))]
    · rw [writeNumber, if_pos hden]
  refine ⟨main q, fun h1 h2 => ?_⟩
  unfold encodeTransaction
  rw [writeString_isOk h1, ok_bind, main t.timestamp h2, error_bind]

/-- Witness for C3: a fractional number and a negative timestamp. -/
theorem writeNumber_rejects_negative_and_fractional_witness :
    writeNumber (Rat.mk' 3 2 (by decide) (by decide)) = .error .invalidNumber ∧
    encodeTransaction { id := [97], timestamp := -1, inputs := [], outputs := [] } =
      .error .invalidNumber :=
  ⟨(writeNumber_rejects_negative_and_fractional (Rat.mk' 3 2 (by decide) (by decide))
      { id := [97], timestamp := -1, inputs := [], outputs := [] }).1 (Or.inl (by decide)),
   (writeNumber_rejects_negative_and_fractional (Rat.mk' 3 2 (by decide) (by decide))
      { id := [97], timestamp := -1, inputs := [], outputs := [] }).2 (by decide)
      (Or.inr (by decide))⟩

/-- C7: encoding succeeds at the 255-element / 255-byte boundary and fails
just past it with the matching error: 256 inputs give the too-many-inputs
error, 256 outputs the too-many-outputs error, a 256-byte id string the
string-too-long error. -/
theorem encode_length_boundaries (t : Transaction) :
    (withinLimits t → (encodeTransaction t).isOk = true)
    ∧ (t.id.length ≤ 255 → validNum t.timestamp → t.inputs.length = 256 →
        encodeTransaction t = .error .tooManyInputs)
    ∧ (t.id.length ≤ 255 → validNum t.timestamp → t.inputs.length ≤ 255 →
        (∀ i ∈ t.inputs, inputOk i) → t.outputs.length = 256 →
        encodeTransaction t = .error .tooManyOutputs)
    ∧ (t.id.length = 256 → encodeTransaction t = .error .stringTooLong) := by
  refine ⟨fun h => ?_, fun h1 h2 h3 => ?_, fun h1 h2 h3 h4 h5 => ?_, fun h1 => ?_⟩
  · obtain ⟨b, hb⟩ := encodeTransaction_isOk h
    rw [hb]
    rfl
  · unfold encodeTransaction
    rw [writeString_isOk h1, ok_bind, writeNumber_isOk h2, ok_bind, if_pos (by omega)]
    rfl
  · obtain ⟨inWs, hinW⟩ := mapM_writeInput_isOk h4
    unfold encodeTransaction
    rw [writeString_isOk h1, ok_bind, writeNumber_isOk h2, ok_bind, if_neg (by omega),
      except_pure_bind, hinW, ok_bind, if_pos (by omega)]
    rfl
  · unfold encodeTransaction
    rw [show writeString t.id = Except.error .stringTooLong by
        rw [writeString, if_pos (by omega)],
      error_bind]

/-- Witness for C7: boundary transactions with 255/256 inputs, outputs, and
id bytes. -/
theorem encode_length_boundaries_witness :
    (encodeTransaction
      { id := List.replicate 255 97, timestamp := 7,
        inputs := List.replicate 255
          { utxoId := { txId := [], outputIndex := 0 }, owner := [], signature := [] },
        outputs := List.replicate 255 { amount := 1, recipient := [] } }).isOk = true
    ∧ encodeTransaction
      { id := [97], timestamp := 7,
        inputs := List.replicate 256
          { utxoId := { txId := [], outputIndex := 0 }, owner := [], signature := [] },
        outputs := [{ amount := 1, recipient := [] }] } = .error .tooManyInputs
    ∧ encodeTransaction
      { id := [97], timestamp := 7, inputs := [],
        outputs := List.replicate 256 { amount := 1, recipient := [] } } =
        .error .tooManyOutputs
    ∧ encodeTransaction
      { id := List.replicate 256 97, timestamp := 7, inputs := [], outputs := [] } =
        .error .stringTooLong :=
  ⟨(encode_length_boundaries _).1 (by decide),
   (encode_length_boundaries _).2.1 (by decide) (by decide) (by decide),
   (encode_length_boundaries _).2.2.1 (by decide) (by decide) (by decide) (by decide)
     (by decide),
   (encode_length_boundaries _).2.2.2 (by decide)⟩

/-! ## Validator lemmas -/

/-- Amount an input contributes to `imputTotal`: the stored UTXO's amount, or
0 when the lookup finds nothing. -/
def resolvedAmount (getUTXO : UTXOStore) (i : TransactionInput) : ℚ :=
  match getUTXO i.utxoId.txId i.utxoId.outputIndex with
  | some utxo => utxo.amount
  | none => 0

/-- Sum of the resolved amounts of a list of inputs. -/
def inputsTotal (getUTXO : UTXOStore) (l : List TransactionInput) : ℚ :=
  (l.map (resolvedAmount getUTXO)).sum

/-- Sum of the output amounts. -/
def outputsTotal (t : Transaction) : ℚ :=
  (t.outputs.map (fun o => o.amount)).sum

theorem processInput_decomp (g : UTXOStore) (v : Verifier) (t : Transaction)
    (e : List ValidationError) (q : ℚ) (u : List (List Nat)) (i : TransactionInput) :
    processInput g v t (e, q, u) i =
      (e ++ (processInput g v t ([], q, u) i).1, (processInput g v t ([], q, u) i).2) := by
  unfold processInput
  cases hg : g i.utxoId.txId i.utxoId.outputIndex <;> simp [hg]

theorem processInput_total (g : UTXOStore) (v : Verifier) (t : Transaction)
    (e : List ValidationError) (q : ℚ) (u : List (List Nat)) (i : TransactionInput) :
    (processInput g v t (e, q, u) i).2.1 = q + resolvedAmount g i := by
  unfold processInput resolvedAmount
  cases hg : g i.utxoId.txId i.utxoId.outputIndex <;> simp [hg]

theorem foldl_processInput_decomp (g : UTXOStore) (v : Verifier) (t : Transaction)
    (l : List TransactionInput) (e : List ValidationError) (q : ℚ) (u : List (List Nat)) :
    l.foldl (processInput g v t) (e, q, u) =
      (e ++ (l.foldl (processInput g v t) ([], q, u)).1,
       (l.foldl (processInput g v t) ([], q, u)).2) := by
  induction l generalizing e q u with
  | nil => simp
  | cons i tl ih =>
    simp only [List.foldl_cons]
    rcases hP : processInput g v t ([], q, u) i with ⟨E1, q', u'⟩
    have hPe : processInput g v t (e, q, u) i = (e ++ E1, q', u') := by
      rw [processInput_decomp, hP]
    rw [hPe, ih (e ++ E1) q' u', ih E1 q' u']
    simp [List.append_assoc]

theorem foldl_processInput_total (g : UTXOStore) (v : Verifier) (t : Transaction) :
    ∀ (l : List TransactionInput) (e : List ValidationError) (q : ℚ) (u : List (List Nat)),
      (l.foldl (processInput g v t) (e, q, u)).2.1 = q + inputsTotal g l := by
  intro l
  induction l with
  | nil => intro e q u; simp [inputsTotal]
  | cons i tl ih =>
    intro e q u
    simp only [List.foldl_cons]
    rcases hP : processInput g v t (e, q, u) i with ⟨E1, q', u'⟩
    have hq' : q' = q + resolvedAmount g i := by
      have h := processInput_total g v t e q u i
      rw [hP] at h
      exact h
    rw [ih E1 q' u', hq']
    simp [inputsTotal]
    ring

theorem mem_foldl_processInput_of_mem (g : UTXOStore) (v : Verifier) (t : Transaction)
    (l : List TransactionInput) (e : List ValidationError) (q : ℚ) (u : List (List Nat))
    {err : ValidationError} (h : err ∈ e) :
    err ∈ (l.foldl (processInput g v t) (e, q, u)).1 := by
  rw [foldl_processInput_decomp]
  simp [h]

theorem exists_P_in_fold (g : UTXOStore) (v : Verifier) (t : Transaction)
    (P : ValidationError → Prop) (i : TransactionInput)
    (hstep : ∀ (q' : ℚ) (u' : List (List Nat)),
      ∃ err ∈ (processInput g v t ([], q', u') i).1, P err) :
    ∀ (l : List TransactionInput), i ∈ l →
      ∀ (e : List ValidationError) (q : ℚ) (u : List (List Nat)),
        ∃ err ∈ (l.foldl (processInput g v t) (e, q, u)).1, P err := by
  intro l
  induction l with
  | nil => intro h; cases h
  | cons j tl ih =>
    intro hi e q u
    simp only [List.foldl_cons]
    rcases List.mem_cons.mp hi with hji | hitl
    · subst hji
      obtain ⟨err, hmem, hP⟩ := hstep q u
      have hmem' : err ∈ (processInput g v t (e, q, u) i).1 := by
        rw [processInput_decomp]
        simp [hmem]
      rcases hS : processInput g v t (e, q, u) i with ⟨E1, q1, u1⟩
      rw [hS] at hmem'
      exact ⟨err, mem_foldl_processInput_of_mem g v t tl E1 q1 u1 hmem', hP⟩
    · rcases hS : processInput g v t (e, q, u) j with ⟨E1, q1, u1⟩
      exact ih hitl E1 q1 u1

theorem processInput_kinds (g : UTXOStore) (v : Verifier) (t : Transaction)
    (q : ℚ) (u : List (List Nat)) (i : TransactionInput) :
    ∀ err ∈ (processInput g v t ([], q, u) i).1,
      err.kind = .UTXO_NOT_FOUND ∨ err.kind = .NEGATIVE_AMOUNT ∨
      err.kind = .INVALID_SIGNATURE ∨ err.kind = .DOUBLE_SPENDING := by
  intro err herr
  unfold processInput validateInputSignature validateDoubleSpending at herr
  cases hg : g i.utxoId.txId i.utxoId.outputIndex <;> rw [hg] at herr <;>
    simp only [createValidationError, List.nil_append, List.append_nil,
      List.mem_append, List.mem_singleton, List.not_mem_nil, or_false, false_or] at herr
  · subst herr
    simp
  · split_ifs at herr <;>
      simp only [List.mem_append, List.mem_singleton, List.not_mem_nil, or_false,
        false_or, or_assoc] at herr <;>
      first
        | exact herr.elim
        | (subst herr; simp)
        | (rcases herr with rfl | rfl <;> simp)
        | (rcases herr with rfl | rfl | rfl <;> simp)

theorem fold_kinds (g : UTXOStore) (v : Verifier) (t : Transaction) :
    ∀ (l : List TransactionInput) (q : ℚ) (u : List (List Nat)),
      ∀ err ∈ (l.foldl (processInput g v t) ([], q, u)).1,
        err.kind = .UTXO_NOT_FOUND ∨ err.kind = .NEGATIVE_AMOUNT ∨
        err.kind = .INVALID_SIGNATURE ∨ err.kind = .DOUBLE_SPENDING := by
  intro l
  induction l with
  | nil => intro q u err h; cases h
  | cons i tl ih =>
    intro q u err herr
    simp only [List.foldl_cons] at herr
    rcases hS : processInput g v t ([], q, u) i with ⟨E1, q1, u1⟩
    rw [hS] at herr
    rw [foldl_processInput_decomp] at herr
    rcases List.mem_append.mp herr with h | h
    · have := processInput_kinds g v t q u i err
      rw [hS] at this
      exact this h
    · exact ih q1 u1 err h

theorem validateBalance_split (q : ℚ) (t : Transaction) :
    validateBalance q t =
      (t.outputs.filter (fun o => decide (o.amount ≤ 0))).map
        (fun o => createValidationError .NEGATIVE_AMOUNT
          (asciiBytes "Output amount can not be negative or zero: " ++ ratBytes o.amount))
      ++ (if q ≠ outputsTotal t then
            [createValidationError .AMOUNT_MISMATCH
              (asciiBytes "AMOUNTS MISMATCH: " ++ ratBytes q ++ asciiBytes " != "
                ++ ratBytes (outputsTotal t))]
          else []) := by
  have key : ∀ (l : List TransactionOutput) (e0 : List ValidationError) (q0 : ℚ),
      (List.foldl (fun (st : List ValidationError × ℚ) output =>
        (st.1 ++ (if output.amount ≤ 0 then
          [createValidationError .NEGATIVE_AMOUNT
            (asciiBytes "Output amount can not be negative or zero: " ++ ratBytes output.amount)]
          else []), st.2 + output.amount)) (e0, q0) l) =
      (e0 ++ (l.filter (fun o => decide (o.amount ≤ 0))).map
        (fun o => createValidationError .NEGATIVE_AMOUNT
          (asciiBytes "Output amount can not be negative or zero: " ++ ratBytes o.amount)),
       q0 + (l.map (fun o => o.amount)).sum) := by
    intro l
    induction l with
    | nil => intro e0 q0; simp
    | cons o l ih =>
      intro e0 q0
      simp only [List.foldl_cons, ih, List.filter_cons, List.map_cons, List.sum_cons]
      by_cases h : o.amount ≤ 0 <;>
        simp [h, List.append_assoc] <;> ring
  unfold validateBalance outputsTotal
  rw [key t.outputs [] 0]
  simp

theorem validateBalance_kinds (q : ℚ) (t : Transaction) :
    ∀ err ∈ validateBalance q t,
      err.kind = .NEGATIVE_AMOUNT ∨ err.kind = .AMOUNT_MISMATCH := by
  intro err h
  rw [validateBalance_split] at h
  rcases List.mem_append.mp h with h | h
  · obtain ⟨o, -, rfl⟩ := List.mem_map.mp h
    left
    rfl
  · right
    by_cases hq : q ≠ outputsTotal t
    · simp only [if_pos hq, List.mem_singleton] at h
      subst h
      rfl
    · simp [hq] at h

theorem validateBalance_mismatch_iff (q : ℚ) (t : Transaction) :
    (∃ err ∈ validateBalance q t, err.kind = .AMOUNT_MISMATCH) ↔ q ≠ outputsTotal t := by
  rw [validateBalance_split]
  constructor
  · rintro ⟨err, hmem, hk⟩
    rcases List.mem_append.mp hmem with h | h
    · obtain ⟨o, -, rfl⟩ := List.mem_map.mp h
      cases hk
    · by_cases hq : q ≠ outputsTotal t
      · exact hq
      · simp [hq] at h
  · intro hq
    refine ⟨createValidationError .AMOUNT_MISMATCH
      (asciiBytes "AMOUNTS MISMATCH: " ++ ratBytes q ++ asciiBytes " != "
        ++ ratBytes (outputsTotal t)), List.mem_append.mpr (Or.inr ?_), rfl⟩
    simp [hq]

theorem validateTransaction_errors_eq (g : UTXOStore) (v : Verifier) (t : Transaction) :
    (validateTransaction g v t).errors =
      validateNonEmptyInputsAndOutputs t
        ++ (t.inputs.foldl (processInput g v t) ([], 0, [])).1
        ++ validateBalance (inputsTotal g t.inputs) t := by
  unfold validateTransaction
  rw [foldl_processInput_decomp]
  have htot := foldl_processInput_total g v t t.inputs [] 0 []
  simp [htot, List.append_assoc]

/-! ## Validator claims -/

/-- C4: for every transaction, UTXO store and verifier, the result's `valid`
field is true exactly when its `errors` sequence is empty.  Findings are
collected in the returned list — `validateTransaction` is a total function
into `ValidationResult`, so no exception path exists — and `valid` is derived
purely from emptiness of `errors`. -/
theorem valid_iff_errors_empty (g : UTXOStore) (v : Verifier) (t : Transaction) :
    (validateTransaction g v t).valid = true ↔ (validateTransaction g v t).errors = [] := by
  unfold validateTransaction
  simp [List.length_eq_zero]

/-- C5: a transaction with at least one unresolvable input and a balance
mismatch (with absent UTXOs contributing 0) reports both `UtxoNotFound` and
`AmountMismatch` in the same result. -/
theorem unknown_utxo_and_mismatch_both_reported (g : UTXOStore) (v : Verifier)
    (t : Transaction)
    (h1 : ∃ i ∈ t.inputs, g i.utxoId.txId i.utxoId.outputIndex = none)
    (h2 : inputsTotal g t.inputs ≠ outputsTotal t) :
    (∃ e ∈ (validateTransaction g v t).errors, e.kind = .UTXO_NOT_FOUND) ∧
    (∃ e ∈ (validateTransaction g v t).errors, e.kind = .AMOUNT_MISMATCH) := by
  rw [validateTransaction_errors_eq]
  constructor
  · obtain ⟨i, hi, hnone⟩ := h1
    have hstep : ∀ (q' : ℚ) (u' : List (List Nat)),
        ∃ err ∈ (processInput g v t ([], q', u') i).1, err.kind = .UTXO_NOT_FOUND := by
      intro q' u'
      refine ⟨createValidationError .UTXO_NOT_FOUND
        (asciiBytes "Utxo not found: " ++ i.utxoId.txId
          ++ asciiBytes ":" ++ ratBytes i.utxoId.outputIndex), ?_, rfl⟩
      unfold processInput
      rw [hnone]
      simp
    obtain ⟨err, hmem, hk⟩ :=
      exists_P_in_fold g v t (fun e => e.kind = .UTXO_NOT_FOUND) i hstep t.inputs hi [] 0 []
    exact ⟨err, by simp [hmem], hk⟩
  · obtain ⟨err, hmem, hk⟩ := (validateBalance_mismatch_iff (inputsTotal g t.inputs) t).mpr h2
    exact ⟨err, by simp [hmem], hk⟩

/-- Witness for C5: one input whose UTXO is absent from an empty store and
one output of amount 5, so the resolved inputs sum 0 differs from 5. -/
theorem unknown_utxo_and_mismatch_both_reported_witness :
    (∃ e ∈ (validateTransaction (fun _ _ => none) (fun _ _ _ => true)
        { id := [97], timestamp := 7,
          inputs := [{ utxoId := { txId := [98], outputIndex := 0 },
                       owner := [99], signature := [100] }],
          outputs := [{ amount := 5, recipient := [101] }] }).errors,
      e.kind = .UTXO_NOT_FOUND) ∧
    (∃ e ∈ (validateTransaction (fun _ _ => none) (fun _ _ _ => true)
        { id := [97], timestamp := 7,
          inputs := [{ utxoId := { txId := [98], outputIndex := 0 },
                       owner := [99], signature := [100] }],
          outputs := [{ amount := 5, recipient := [101] }] }).errors,
      e.kind = .AMOUNT_MISMATCH) :=
  unknown_utxo_and_mismatch_both_reported (fun _ _ => none) (fun _ _ _ => true) _
    ⟨{ utxoId := { txId := [98], outputIndex := 0 }, owner := [99], signature := [100] },
      by simp, rfl⟩
    (by simp [inputsTotal, outputsTotal, resolvedAmount])

theorem validateNonEmptyInputsAndOutputs_kinds (t : Transaction) :
    ∀ err ∈ validateNonEmptyInputsAndOutputs t,
      err.kind = .EMPTY_INPUTS ∨ err.kind = .EMPTY_OUTPUTS := by
  intro err h
  unfold validateNonEmptyInputsAndOutputs at h
  split_ifs at h <;>
    simp only [createValidationError, List.mem_append, List.mem_singleton, List.not_mem_nil,
      or_false, false_or, or_assoc] at h <;>
    first
      | exact h.elim
      | (subst h; simp)
      | (rcases h with rfl | rfl <;> simp)

/-- C8: an input whose UTXO resolves with a non-positive amount gets the
UTXO-side `NegativeAmount` finding, and its amount still enters the
`inputsTotal` that the `AmountMismatch` comparison uses. -/
theorem negative_utxo_flagged_and_counted (g : UTXOStore) (v : Verifier) (t : Transaction)
    (i : TransactionInput) (u : UTXO)
    (hi : i ∈ t.inputs) (hu : g i.utxoId.txId i.utxoId.outputIndex = some u)
    (hneg : u.amount ≤ 0) :
    (∃ e ∈ (validateTransaction g v t).errors,
        e.kind = .NEGATIVE_AMOUNT ∧ e.message = asciiBytes "Utxo amount must be positive")
    ∧ resolvedAmount g i = u.amount
    ∧ ((∃ e ∈ (validateTransaction g v t).errors, e.kind = .AMOUNT_MISMATCH)
        ↔ inputsTotal g t.inputs ≠ outputsTotal t) := by
  refine ⟨?_, ?_, ?_⟩
  · rw [validateTransaction_errors_eq]
    have hstep : ∀ (q' : ℚ) (u' : List (List Nat)),
        ∃ err ∈ (processInput g v t ([], q', u') i).1,
          err.kind = .NEGATIVE_AMOUNT
            ∧ err.message = asciiBytes "Utxo amount must be positive" := by
      intro q' u'
      refine ⟨createValidationError .NEGATIVE_AMOUNT (asciiBytes "Utxo amount must be positive"),
        ?_, rfl, rfl⟩
      unfold processInput
      rw [hu]
      simp [hneg]
    obtain ⟨err, hmem, hk⟩ := exists_P_in_fold g v t
      (fun e => e.kind = .NEGATIVE_AMOUNT
        ∧ e.message = asciiBytes "Utxo amount must be positive") i hstep t.inputs hi [] 0 []
    exact ⟨err, by simp [hmem], hk⟩
  · unfold resolvedAmount
    rw [hu]
  · rw [validateTransaction_errors_eq]
    constructor
    · rintro ⟨err, hmem, hk⟩
      rcases List.mem_append.mp hmem with hm | hm
      · rcases List.mem_append.mp hm with hm' | hm'
        · have := validateNonEmptyInputsAndOutputs_kinds t err hm'
          rw [hk] at this
          simp at this
        · have := fold_kinds g v t t.inputs 0 [] err hm'
          rw [hk] at this
          simp at this
      · exact (validateBalance_mismatch_iff _ t).mp ⟨err, hm, hk⟩
    · intro hq
      obtain ⟨err, hmem, hk⟩ := (validateBalance_mismatch_iff _ t).mpr hq
      exact ⟨err, by simp [hmem], hk⟩

/-- Witness for C8: a store holding a UTXO of amount −3. -/
theorem negative_utxo_flagged_and_counted_witness :
    (∃ e ∈ (validateTransaction (fun _ _ => some { amount := -3, owner := [99] })
        (fun _ _ _ => true)
        { id := [97], timestamp := 7,
          inputs := [{ utxoId := { txId := [98], outputIndex := 0 },
                       owner := [99], signature := [100] }],
          outputs := [{ amount := 5, recipient := [101] }] }).errors,
      e.kind = .NEGATIVE_AMOUNT ∧ e.message = asciiBytes "Utxo amount must be positive")
    ∧ resolvedAmount (fun _ _ => some { amount := -3, owner := [99] })
        { utxoId := { txId := [98], outputIndex := 0 }, owner := [99], signature := [100] }
      = (-3 : ℚ)
    ∧ ((∃ e ∈ (validateTransaction (fun _ _ => some { amount := -3, owner := [99] })
        (fun _ _ _ => true)
        { id := [97], timestamp := 7,
          inputs := [{ utxoId := { txId := [98], outputIndex := 0 },
                       owner := [99], signature := [100] }],
          outputs := [{ amount := 5, recipient := [101] }] }).errors,
        e.kind = .AMOUNT_MISMATCH)
      ↔ inputsTotal (fun _ _ => some { amount := -3, owner := [99] })
          [{ utxoId := { txId := [98], outputIndex := 0 }, owner := [99], signature := [100] }]
        ≠ outputsTotal
          { id := [97], timestamp := 7,
            inputs := [{ utxoId := { txId := [98], outputIndex := 0 },
                         owner := [99], signature := [100] }],
            outputs := [{ amount := 5, recipient := [101] }] }) :=
  negative_utxo_flagged_and_counted (fun _ _ => some { amount := -3, owner := [99] })
    (fun _ _ _ => true) _ _ { amount := -3, owner := [99] } (by simp) rfl (by decide)

/-- C9: the message handed to the external `verify` primitive is the
signable payload `createTransactionDataForSigning` — the result of validation
depends on the verifier only through its values at that message — and that
payload is unchanged when every input's signature is replaced arbitrarily,
so the signatures never enter the verified message. -/
theorem signature_message_omits_signatures (g : UTXOStore) (v v' : Verifier)
    (t : Transaction) (f : TransactionInput → List Nat)
    (hvv : ∀ s o, v (createTransactionDataForSigning t) s o
      = v' (createTransactionDataForSigning t) s o) :
    validateTransaction g v t = validateTransaction g v' t
    ∧ createTransactionDataForSigning
        { t with inputs := t.inputs.map (fun i => { i with signature := f i }) }
      = createTransactionDataForSigning t := by
  constructor
  · have hstep : processInput g v t = processInput g v' t := by
      funext st i
      unfold processInput validateInputSignature
      cases hg : g i.utxoId.txId i.utxoId.outputIndex <;> simp [hg, hvv]
    unfold validateTransaction
    rw [hstep]
  · unfold createTransactionDataForSigning
    simp only [List.map_map]
    have hcomp : unsignedInputJson ∘ (fun i => { i with signature := f i })
        = unsignedInputJson := funext fun i => rfl
    rw [hcomp]

set_option maxHeartbeats 1000000 in
/-- Witness for C9 at a concrete transaction, store, verifier, and signature
replacement. -/
theorem signature_message_omits_signatures_witness :
    validateTransaction (fun _ _ => none) (fun _ _ _ => true)
      { id := [97], timestamp := 7,
        inputs := [{ utxoId := { txId := [98], outputIndex := 0 },
                     owner := [99], signature := [100] }],
        outputs := [{ amount := 5, recipient := [101] }] }
      = validateTransaction (fun _ _ => none) (fun _ _ _ => true)
      { id := [97], timestamp := 7,
        inputs := [{ utxoId := { txId := [98], outputIndex := 0 },
                     owner := [99], signature := [100] }],
        outputs := [{ amount := 5, recipient := [101] }] }
    ∧ createTransactionDataForSigning
        { id := [97], timestamp := 7,
          inputs := ([{ utxoId := { txId := [98], outputIndex := 0 },
                        owner := [99], signature := [100] }] : List TransactionInput).map
            (fun i => { i with signature := [1] }),
          outputs := [{ amount := 5, recipient := [101] }] }
      = createTransactionDataForSigning
        { id := [97], timestamp := 7,
          inputs := [{ utxoId := { txId := [98], outputIndex := 0 },
                       owner := [99], signature := [100] }],
          outputs := [{ amount := 5, recipient := [101] }] } :=
  signature_message_omits_signatures (fun _ _ => none) (fun _ _ _ => true)
    (fun _ _ _ => true) _ (fun _ => [1]) (fun _ _ => rfl)

theorem countP_double_ite_neg (c : Prop) [Decidable c] (m : List Nat) :
    ((if c then [createValidationError .NEGATIVE_AMOUNT m] else []).countP
      (fun e => e.kind == .DOUBLE_SPENDING)) = 0 := by
  split <;> rfl

theorem countP_double_sig (v : Verifier) (t : Transaction) (i : TransactionInput) :
    ((validateInputSignature v t i).countP (fun e => e.kind == .DOUBLE_SPENDING)) = 0 := by
  unfold validateInputSignature
  dsimp only
  split <;> rfl

theorem countP_double_struct (t : Transaction) :
    ((validateNonEmptyInputsAndOutputs t).countP (fun e => e.kind == .DOUBLE_SPENDING)) = 0 := by
  unfold validateNonEmptyInputsAndOutputs
  split_ifs <;> rfl

theorem countP_double_balance (q : ℚ) (t : Transaction) :
    ((validateBalance q t).countP (fun e => e.kind == .DOUBLE_SPENDING)) = 0 := by
  rw [List.countP_eq_zero]
  intro err herr
  rcases validateBalance_kinds q t err herr with hk | hk <;> simp [hk]

theorem validateDoubleSpending_not_seen {i : TransactionInput} {utxos : List (List Nat)}
    (h : getUTXOKey i.utxoId ∉ utxos) :
    validateDoubleSpending i utxos = ([], getUTXOKey i.utxoId :: utxos) := by
  unfold validateDoubleSpending
  rw [if_neg h]

theorem validateDoubleSpending_seen {i : TransactionInput} {utxos : List (List Nat)}
    (h : getUTXOKey i.utxoId ∈ utxos) :
    validateDoubleSpending i utxos =
      ([createValidationError .DOUBLE_SPENDING
        (asciiBytes "This UTXO is referenced multiple times within the same transaction: "
          ++ getUTXOKey i.utxoId)], utxos) := by
  unfold validateDoubleSpending
  rw [if_pos h]

/-- C6: a transaction with exactly two inputs referencing the identical
`(txId, outputIndex)`, that UTXO being present in the store, reports exactly
one `DoubleSpending` error. -/
theorem double_spend_reported_once (g : UTXOStore) (v : Verifier) (t : Transaction)
    (i1 i2 : TransactionInput) (u : UTXO)
    (hin : t.inputs = [i1, i2]) (hid12 : i1.utxoId = i2.utxoId)
    (hu : g i1.utxoId.txId i1.utxoId.outputIndex = some u) :
    ((validateTransaction g v t).errors.countP (fun e => e.kind == .DOUBLE_SPENDING)) = 1 := by
  have hu2 : g i2.utxoId.txId i2.utxoId.outputIndex = some u := by
    rw [← hid12]
    exact hu
  rw [validateTransaction_errors_eq, hin, List.countP_append, List.countP_append,
    countP_double_struct, countP_double_balance]
  simp only [List.foldl_cons, List.foldl_nil, Nat.add_zero, Nat.zero_add]
  have h1 : processInput g v t ([], 0, []) i1 =
      (([] ++ (if u.amount ≤ 0 then
          [createValidationError .NEGATIVE_AMOUNT (asciiBytes "Utxo amount must be positive")]
        else []) ++ validateInputSignature v t i1 ++ [],
       0 + u.amount, [getUTXOKey i1.utxoId])) := by
    unfold processInput
    rw [hu, validateDoubleSpending_not_seen (by simp)]
  rw [h1]
  have h2 : processInput g v t
      ([] ++ (if u.amount ≤ 0 then
          [createValidationError .NEGATIVE_AMOUNT (asciiBytes "Utxo amount must be positive")]
        else []) ++ validateInputSignature v t i1 ++ [],
       0 + u.amount, [getUTXOKey i1.utxoId]) i2 =
      ((([] ++ (if u.amount ≤ 0 then
          [createValidationError .NEGATIVE_AMOUNT (asciiBytes "Utxo amount must be positive")]
        else []) ++ validateInputSignature v t i1 ++ [])
        ++ (if u.amount ≤ 0 then
          [createValidationError .NEGATIVE_AMOUNT (asciiBytes "Utxo amount must be positive")]
        else []) ++ validateInputSignature v t i2
        ++ [createValidationError .DOUBLE_SPENDING
          (asciiBytes "This UTXO is referenced multiple times within the same transaction: "
            ++ getUTXOKey i2.utxoId)],
       0 + u.amount + u.amount, [getUTXOKey i1.utxoId])) := by
    unfold processInput
    rw [hu2, validateDoubleSpending_seen (by rw [← hid12]; simp)]
  rw [h2]
  simp only [List.countP_append, countP_double_ite_neg, countP_double_sig,
    List.countP_nil, Nat.add_zero, Nat.zero_add]
  rfl

/-- Witness for C6: two identical inputs spending the same stored UTXO. -/
theorem double_spend_reported_once_witness :
    ((validateTransaction (fun _ _ => some { amount := 5, owner := [99] })
      (fun _ _ _ => true)
      { id := [97], timestamp := 7,
        inputs := [{ utxoId := { txId := [98], outputIndex := 0 },
                     owner := [99], signature := [100] },
                   { utxoId := { txId := [98], outputIndex := 0 },
                     owner := [99], signature := [100] }],
        outputs := [{ amount := 5, recipient := [101] }] }).errors.countP
      (fun e => e.kind == .DOUBLE_SPENDING)) = 1 :=
  double_spend_reported_once (fun _ _ => some { amount := 5, owner := [99] })
    (fun _ _ _ => true) _
    { utxoId := { txId := [98], outputIndex := 0 }, owner := [99], signature := [100] }
    { utxoId := { txId := [98], outputIndex := 0 }, owner := [99], signature := [100] }
    { amount := 5, owner := [99] } rfl rfl rfl
